import Mathlib

/-!
Shallow embedding of the PrintInfo GitHub Action (`src/index.js`).

The program is a single sequential script: a helper `getCommandOutput` that
shells out and captures streams, a timestamp generator, an OS/distro
inspector, a git-repository inspector, and an optional extended section
(Java version probe and a directory tree probe).

JavaScript string operations (`trim`, `split`, `replace(/x/g, y)`,
`substring`, `padStart`, truthiness of strings, `||`) are embedded as
List-Char based functions so that everything evaluates inside the kernel.
The child-process layer (`@actions/exec`) is modelled by `ExecEnv`: its
`found` field models `io.which(tool, true)` — `exec.exec` rejects with
`Unable to locate executable file` when the executable does not resolve,
before the options (including `ignoreReturnCode`) are consulted — and its
`runOf` field gives the captured stdout, stderr and exit code of the
spawned process when the executable is present.  `exec.exec`'s behaviour
of rejecting on a non-zero exit code unless `ignoreReturnCode` is set is
modelled by `execExec` returning `Except`.
-/

/-- JavaScript `String.prototype.trim`: strip whitespace from both ends. -/
def jsTrim (s : String) : String :=
  ⟨((s.data.dropWhile Char.isWhitespace).reverse.dropWhile Char.isWhitespace).reverse⟩

/-- Accumulator version of splitting a character list at a separator char. -/
def splitCharAux (c : Char) : List Char → List Char → List (List Char)
  | [], acc => [acc.reverse]
  | ch :: rest, acc =>
    if ch = c then acc.reverse :: splitCharAux c rest []
    else splitCharAux c rest (ch :: acc)

/-- JavaScript `s.split(c)` for a one-character separator. -/
def jsSplitChar (s : String) (c : Char) : List String :=
  (splitCharAux c s.data []).map String.mk

/-- JavaScript `s.replace(/c/g, t)`: replace every occurrence of the
character `c` by the string `t`. -/
def jsReplaceChar (s : String) (c : Char) (t : String) : String :=
  ⟨s.data.foldr (fun ch acc => if ch = c then t.data ++ acc else ch :: acc) []⟩

/-- JavaScript `s.startsWith(p)`. -/
def strHasPrefix (s p : String) : Bool := p.data.isPrefixOf s.data

/-- JavaScript `s.substring(0, n)` (clamped at the string length). -/
def jsTake (s : String) (n : Nat) : String := ⟨s.data.take n⟩

/-- Last character of a string, if any (used for the `/,$/` regex test). -/
def lastChar (s : String) : Option Char := s.data.getLast?

/-- Drop the final character of a nonempty string. -/
def dropLastChar (s : String) : String := ⟨s.data.dropLast⟩

/-- JavaScript `Array.prototype.join(sep)`. -/
def jsJoin (sep : String) : List String → String
  | [] => ""
  | [x] => x
  | x :: y :: rest => x ++ sep ++ jsJoin sep (y :: rest)

/-- JavaScript `String(n).padStart(len, c)` for a natural number `n`. -/
def padStart (s : String) (len : Nat) (c : Char) : String :=
  if len ≤ s.length then s else ⟨List.replicate (len - s.length) c⟩ ++ s

/-- JavaScript `a || b` on strings: `a` when nonempty (truthy), else `b`. -/
def jsOr (a b : String) : String := if a ≠ "" then a else b

/-- Value of an ambient environment variable: `none` models `undefined`. -/
def envStr (v : Option String) : String := v.getD ""

/-- Template-literal rendering of a possibly-undefined environment variable:
JavaScript prints the text `undefined` for an unset variable. -/
def envShow (v : Option String) : String :=
  match v with
  | some s => s
  | none => "undefined"

/-- Raw outcome of one spawned child process: the bytes accumulated by the
stdout and stderr listeners and the process exit code. -/
structure RawResult where
  stdout : String
  stderr : String
  exitCode : Int
deriving DecidableEq, Repr

/-- The child-process layer.  `found` models `io.which(tool, true)`: when
it is false for a command, `exec.exec` rejects with
`Unable to locate executable file` before any option is consulted.  When
the executable is present, `runOf` gives the captured streams and the exit
code of the spawned process. -/
structure ExecEnv where
  found : String → Bool
  runOf : String → List String → RawResult

/-- The subset of `@actions/exec` options used by `src/index.js`. -/
structure ExecOptions where
  silent : Bool
  ignoreReturnCode : Bool
deriving DecidableEq, Repr

/-- Options passed by `getCommandOutput` (src/index.js lines 11-18). -/
def gcoOptions : ExecOptions := { silent := true, ignoreReturnCode := true }

/-- Options of a bare `exec.exec(command, args)` call with no options
object: the `@actions/exec` defaults. -/
def defaultExecOptions : ExecOptions := { silent := false, ignoreReturnCode := false }

/-- Model of `exec.exec` from `@actions/exec`: rejects when the executable
does not resolve (whatever the options say); otherwise resolves with the
exit code, except that a non-zero exit code rejects unless
`ignoreReturnCode` is set. -/
def execExec (e : ExecEnv) (opts : ExecOptions) (command : String) (args : List String) :
    Except String Int :=
  if e.found command = false then
    Except.error ("Unable to locate executable file: " ++ command)
  else
    let r := e.runOf command args
    if r.exitCode ≠ 0 ∧ opts.ignoreReturnCode = false then
      Except.error ("The process failed with exit code " ++ toString r.exitCode)
    else
      Except.ok r.exitCode

/-- Result type produced by `getCommandOutput`: trimmed captured stdout,
trimmed captured stderr, and the exit code (src/index.js line 28). -/
structure CommandResult where
  stdout : String
  stderr : String
  exitCode : Int
deriving DecidableEq, Repr

/-- `getCommandOutput` from src/index.js lines 8-29: runs the command with
stream listeners, `silent: true` and `ignoreReturnCode: true`, and returns
the trimmed streams together with the exit code.  The `Except` layer
carries the rejection of the underlying `exec.exec` call, which with these
options happens exactly when the executable is missing. -/
def getCommandOutput (e : ExecEnv) (command : String) (args : List String) :
    Except String CommandResult :=
  let r := e.runOf command args
  match execExec e gcoOptions command args with
  | Except.error msg => Except.error msg
  | Except.ok exitCode =>
      Except.ok { stdout := jsTrim r.stdout, stderr := jsTrim r.stderr, exitCode := exitCode }

/-- The value `getCommandOutput` resolves with when the executable is
present (see `gco_found`). -/
def gcoRun (e : ExecEnv) (command : String) (args : List String) : CommandResult :=
  { stdout := jsTrim (e.runOf command args).stdout
    stderr := jsTrim (e.runOf command args).stderr
    exitCode := (e.runOf command args).exitCode }

theorem gco_found (e : ExecEnv) (command : String) (args : List String)
    (h : e.found command = true) :
    getCommandOutput e command args = Except.ok (gcoRun e command args) := by
  simp [getCommandOutput, execExec, gcoOptions, gcoRun, h]

theorem gco_missing (e : ExecEnv) (command : String) (args : List String)
    (h : e.found command = false) :
    getCommandOutput e command args =
      Except.error ("Unable to locate executable file: " ++ command) := by
  simp [getCommandOutput, execExec, h]

/-- `formatBlock` from src/index.js lines 32-34. -/
def formatBlock (text indent : String) : String :=
  jsJoin "\n" ((jsSplitChar text '\n').map (fun line => indent ++ line))

/-- The fields of a JavaScript `Date` read by the timestamp generator
(`getUTCMonth` is 0-based, exactly as in the Date API). -/
structure JSDate where
  getUTCFullYear : Nat
  getUTCMonth : Nat
  getUTCDate : Nat
  getUTCHours : Nat
  getUTCMinutes : Nat
  getUTCSeconds : Nat
deriving DecidableEq, Repr

/-- Timestamp generation from src/index.js lines 43-50: zero-pad month,
day, hours, minutes, seconds to two digits and assemble
`YYYY-MM-DD HH:MM:SS UTC`. -/
def makeTimestamp (d : JSDate) : String :=
  let year := Nat.repr d.getUTCFullYear
  let month := padStart (Nat.repr (d.getUTCMonth + 1)) 2 '0'
  let day := padStart (Nat.repr d.getUTCDate) 2 '0'
  let hours := padStart (Nat.repr d.getUTCHours) 2 '0'
  let minutes := padStart (Nat.repr d.getUTCMinutes) 2 '0'
  let seconds := padStart (Nat.repr d.getUTCSeconds) 2 '0'
  year ++ "-" ++ month ++ "-" ++ day ++ " " ++ hours ++ ":" ++ minutes ++ ":" ++ seconds ++ " UTC"

/-- Extract the value part of an `/etc/os-release` line:
`line.split('=')[1].replace(/"/g, '')` (an out-of-range index yields the
empty string). -/
def stripOsrValue (line : String) : String :=
  jsReplaceChar ((jsSplitChar line '=').getD 1 "") '"' ""

/-- Distro-info extraction from `/etc/os-release` content, src/index.js
lines 70-74: join the values of `PRETTY_NAME=` lines with a comma; if that
is empty, join the values of `NAME=` and `VERSION=` lines with a space. -/
def distroFromOsRelease (content : String) : String :=
  let lines := jsSplitChar content '\n'
  let pretty := jsJoin ", " ((lines.filter (fun l => strHasPrefix l "PRETTY_NAME=")).map stripOsrValue)
  if pretty ≠ "" then pretty
  else jsJoin " " ((lines.filter (fun l => strHasPrefix l "NAME=" || strHasPrefix l "VERSION=")).map stripOsrValue)

/-- Outcome of the Java probe. -/
inductive JavaOutcome where
  | version (text : String)
  | notFound
deriving DecidableEq, Repr

/-- Java probe from src/index.js lines 128-136: when the exit code is zero
and at least one captured stream is nonempty, report
`stderr || stdout` as the version text, else report not-found. -/
def javaProbe (r : CommandResult) : JavaOutcome :=
  if r.exitCode = 0 ∧ (r.stdout ≠ "" ∨ r.stderr ≠ "") then
    JavaOutcome.version (jsOr r.stderr r.stdout)
  else
    JavaOutcome.notFound

/-- Outcome of the directory-tree probe. -/
inductive TreeOutcome where
  | shown (text : String)
  | winShown (text : String)
  | winFailed
  | unavailable
deriving DecidableEq, Repr

/-- Directory-tree probe logic from src/index.js lines 139-153, as a pure
function of the primary `tree` result and the result the Windows fallback
would give; the Bool records whether the fallback command is invoked. -/
def treeProbe (runnerOS : Option String) (tree winTree : CommandResult) :
    TreeOutcome × Bool :=
  if tree.exitCode = 0 ∧ tree.stdout ≠ "" then
    (TreeOutcome.shown tree.stdout, false)
  else if runnerOS = some "Windows" then
    if winTree.exitCode = 0 ∧ winTree.stdout ≠ "" then
      (TreeOutcome.winShown winTree.stdout, true)
    else
      (TreeOutcome.winFailed, true)
  else
    (TreeOutcome.unavailable, false)

/-- The extended-info flag, src/index.js line 38:
`core.getInput('show_extended_info') === 'true'`. -/
def showExtendedInfo (raw : String) : Bool := raw == "true"

/-- Tags-at-HEAD rendering, src/index.js line 114:
`stdout.replace(/\n/g, ',').replace(/,$/, '') || 'N/A'`. -/
def tagsJoin (s : String) : String :=
  let t := jsReplaceChar s '\n' ","
  let t := if lastChar t = some ',' then dropLastChar t else t
  jsOr t "N/A"

/-- Short commit SHA, src/index.js line 105: `commitSha.substring(0, 7)`. -/
def shortShaOf (commitSha : String) : String := jsTake commitSha 7

/-- Observable state of one run: log lines emitted in order (group markers
included), the named outputs set via `core.setOutput`, and the trace of
every external command invocation in order (an invocation is traced as
attempted even when it rejects because the executable is missing). -/
structure RunState where
  log : List String
  outputs : List (String × String)
  trace : List (String × List String)
deriving DecidableEq, Repr

def addLog (st : RunState) (line : String) : RunState :=
  { st with log := st.log ++ [line] }

def addOutput (st : RunState) (key value : String) : RunState :=
  { st with outputs := st.outputs ++ [(key, value)] }

def addTrace (st : RunState) (command : String) (args : List String) : RunState :=
  { st with trace := st.trace ++ [(command, args)] }

/-- One `await getCommandOutput(command, args)` step inside `run`: records
the attempted invocation and returns the possibly-rejected result. -/
def invoke (e : ExecEnv) (st : RunState) (command : String) (args : List String) :
    Except String CommandResult × RunState :=
  (getCommandOutput e command args, addTrace st command args)

/-- Result of a fallible stage: either the updated state, or the message
of the raised error together with the state at the moment of the raise. -/
inductive StepResult where
  | ok (st : RunState)
  | failed (msg : String) (st : RunState)
deriving DecidableEq, Repr

def StepResult.state : StepResult → RunState
  | StepResult.ok st => st
  | StepResult.failed _ st => st

/-- Ambient environment and host-introspection values read by `run`, fixed
for the duration of one run.  The memory figures are the rendered
`(bytes / 2^30).toFixed(2)` strings: floating-point formatting is not
modelled, and no claim depends on it. -/
structure RunEnv where
  exec : ExecEnv
  now : JSDate
  showExtendedInfoInput : String
  runnerOS : Option String
  githubWorkspace : Option String
  githubRepository : Option String
  githubRefName : Option String
  githubSha : Option String
  javaHome : Option String
  osType : String
  osRelease : String
  osVersion : String
  osArch : String
  osHostname : String
  totalMemGB : String
  freeMemGB : String
  osReleaseExists : Bool
  osReleaseContent : String

/-- Section 1 of `run` (src/index.js lines 41-53): generate the timestamp,
set it as the `formatted_run_timestamp` output, and log it. -/
def stageTimestamp (env : RunEnv) (st : RunState) : String × RunState :=
  let st := addLog st "::group::🕒 Generating Timestamp"
  let timestamp := makeTimestamp env.now
  let st := addOutput st "formatted_run_timestamp" timestamp
  let st := addLog st ("Generated Timestamp: " ++ timestamp)
  let st := addLog st "::endgroup::"
  (timestamp, st)

/-- The Linux distro-info computation (src/index.js lines 67-78): read
`/etc/os-release` when it exists, otherwise fall back to `lsb_release -a`,
keeping `N/A` when that runs but fails or prints nothing; a missing
`lsb_release` executable makes the awaited call reject. -/
def linuxDistroStep (e : ExecEnv) (osReleaseExists : Bool) (content : String)
    (st : RunState) : Except String String × RunState :=
  if osReleaseExists then
    (Except.ok (distroFromOsRelease content), st)
  else
    ((match (invoke e st "lsb_release" ["-a"]).1 with
      | Except.error msg => Except.error msg
      | Except.ok lsb =>
          Except.ok (if lsb.exitCode = 0 ∧ lsb.stdout ≠ "" then
            "\n" ++ formatBlock lsb.stdout "    ▶ " else "N/A")),
     (invoke e st "lsb_release" ["-a"]).2)

/-- Section 2 of `run` (src/index.js lines 56-91): kernel, architecture,
memory and per-OS-family distro details.  A rejected awaited command in
the OS-family branch propagates (only the top-level catch handles it). -/
def stageOSDetails (env : RunEnv) (timestamp : String) (st : RunState) : StepResult :=
  let st := addLog st "::group::🖥️ Operating System Details"
  let st := addLog st "========================================"
  let st := addLog st ("  ACTION TIME:    " ++ timestamp)
  let st := addLog st ("  KERNEL INFO:    " ++ env.osType ++ " " ++ env.osRelease ++ " " ++ env.osVersion)
  let st := addLog st ("  ARCHITECTURE:   " ++ env.osArch)
  let st := addLog st ("  RUNNER OS:      " ++ envShow env.runnerOS)
  let st := addLog st ("  HOSTNAME:       " ++ env.osHostname)
  let st := addLog st ("  TOTAL MEMORY:   " ++ env.totalMemGB ++ " GB")
  let st := addLog st ("  FREE MEMORY:    " ++ env.freeMemGB ++ " GB")
  let tail : RunState → StepResult := fun st =>
    StepResult.ok (addLog (addLog st "========================================") "::endgroup::")
  if env.runnerOS = some "Linux" then
    let d := linuxDistroStep env.exec env.osReleaseExists env.osReleaseContent st
    match d.1 with
    | Except.error msg => StepResult.failed msg d.2
    | Except.ok distroInfo =>
        tail (addLog d.2 ("  DISTRO INFO:    " ++ distroInfo))
  else if env.runnerOS = some "macOS" then
    let q := invoke env.exec st "sw_vers" []
    match q.1 with
    | Except.error msg => StepResult.failed msg q.2
    | Except.ok swVers =>
        tail (if swVers.exitCode = 0 ∧ swVers.stdout ≠ "" then
          addLog q.2 (formatBlock swVers.stdout "  MACOS VERSION:\n    ▶ ") else q.2)
  else if env.runnerOS = some "Windows" then
    let q := invoke env.exec st "powershell"
      ["-Command", "Get-ComputerInfo | Select-Object OsName, OsVersion, OsArchitecture, CsManufacturer, CsModel | Format-List"]
    match q.1 with
    | Except.error msg => StepResult.failed msg q.2
    | Except.ok psInfo =>
        tail (if psInfo.exitCode = 0 ∧ psInfo.stdout ≠ "" then
          addLog q.2 (formatBlock psInfo.stdout "  WINDOWS DETAILS:\n    ▶ ") else q.2)
  else tail st

/-- One `env.X || (await getCommandOutput('git', args)).stdout` step
(src/index.js lines 103 and 105): use the ambient variable when it is a
nonempty string, otherwise issue the git query and use its trimmed stdout
(the query's rejection, for a missing git executable, propagates). -/
def envOrGitQuery (e : ExecEnv) (st : RunState) (v : Option String)
    (command : String) (args : List String) : Except String String × RunState :=
  if envStr v ≠ "" then (Except.ok (envStr v), st)
  else
    ((match (invoke e st command args).1 with
      | Except.error msg => Except.error msg
      | Except.ok r => Except.ok r.stdout),
     (invoke e st command args).2)

/-- The git queries of section 3 (src/index.js lines 100-121), after the
safe-directory configuration; each awaited query can reject only when the
git executable is missing, and such a raise skips the rest. -/
def stageGitQueries (env : RunEnv) (st : RunState) : StepResult :=
  let st := addLog st "========================================"
  let st := addLog st ("  REPOSITORY:       " ++ envShow env.githubRepository)
  let q1 := envOrGitQuery env.exec st env.githubRefName "git" ["rev-parse", "--abbrev-ref", "HEAD"]
  match q1.1 with
  | Except.error msg => StepResult.failed msg q1.2
  | Except.ok branchName =>
  let st := addLog q1.2 ("  BRANCH:           " ++ branchName)
  let q2 := envOrGitQuery env.exec st env.githubSha "git" ["rev-parse", "HEAD"]
  match q2.1 with
  | Except.error msg => StepResult.failed msg q2.2
  | Except.ok commitSha =>
  let st := addLog q2.2 ("  COMMIT SHA:       " ++ commitSha)
  let st := addLog st ("  SHORT SHA:        " ++ shortShaOf commitSha)
  let q3 := invoke env.exec st "git" ["log", "-1", "--pretty=format:%an <%ae>"]
  match q3.1 with
  | Except.error msg => StepResult.failed msg q3.2
  | Except.ok author =>
  let st := addLog q3.2 ("  AUTHOR:           " ++ author.stdout)
  let q4 := invoke env.exec st "git" ["log", "-1", "--pretty=format:%ad", "--date=format:%Y-%m-%d %H:%M:%S %Z"]
  match q4.1 with
  | Except.error msg => StepResult.failed msg q4.2
  | Except.ok commitDate =>
  let st := addLog q4.2 ("  COMMIT DATE:      " ++ commitDate.stdout)
  let q5 := invoke env.exec st "git" ["remote", "get-url", "origin"]
  match q5.1 with
  | Except.error msg => StepResult.failed msg q5.2
  | Except.ok remote =>
  let st := addLog q5.2 ("  REMOTE URL:       " ++ jsOr remote.stdout "N/A")
  let q6 := invoke env.exec st "git" ["tag", "--points-at", "HEAD"]
  match q6.1 with
  | Except.error msg => StepResult.failed msg q6.2
  | Except.ok tags =>
  let st := addLog q6.2 ("  TAGS AT HEAD:     " ++ tagsJoin tags.stdout)
  let st := addLog st ""
  let q7 := invoke env.exec st "git" ["log", "-1", "--pretty=%B"]
  match q7.1 with
  | Except.error msg => StepResult.failed msg q7.2
  | Except.ok commitMessage =>
  let st := addLog q7.2 "  COMMIT MESSAGE:"
  let st := addLog st (formatBlock commitMessage.stdout "    ")
  let st := addLog st "========================================"
  StepResult.ok (addLog st "::endgroup::")

/-- Section 3 of `run` (src/index.js lines 92-121).  The safe-directory
configuration uses a bare `exec.exec('git', ...)` call with default
options, so a non-zero exit code there (or a missing git executable)
rejects and aborts the section. -/
def stageGitDetails (env : RunEnv) (st : RunState) : StepResult :=
  let st := addLog st "::group::🌳 Git Repository Details"
  let ws := envStr env.githubWorkspace
  if ws ≠ "" then
    let st := addTrace st "git" ["config", "--global", "--add", "safe.directory", ws]
    match execExec env.exec defaultExecOptions "git" ["config", "--global", "--add", "safe.directory", ws] with
    | Except.error msg => StepResult.failed msg st
    | Except.ok _ =>
        stageGitQueries env (addLog st ("✅ Added " ++ ws ++ " to git safe.directory"))
  else
    stageGitQueries env
      (addLog st "::warning::GITHUB_WORKSPACE not set. Skipping git safe.directory configuration.")

/-- Arguments of the primary directory-tree invocation (src/index.js line
141). -/
def treeArgs (env : RunEnv) : List String :=
  ["-L", "3", "-a", "-I", ".git|.m2|target|node_modules", jsOr (envStr env.githubWorkspace) "."]

/-- Arguments of the Windows-native tree fallback (src/index.js line 146). -/
def winTreeArgs (env : RunEnv) : List String :=
  ["/c", "tree", "/F", "/A", jsOr (envStr env.githubWorkspace) "."]

/-- The directory-tree block of section 4, src/index.js lines 139-156: the
whole block sits inside its own try/catch, so a rejection of either tree
invocation (e.g. a missing executable) is caught locally — a warning and a
message are logged and the run continues.  This function is therefore
total. -/
def treeSection (env : RunEnv) (st : RunState) : RunState :=
  let q := invoke env.exec st "tree" (treeArgs env)
  match q.1 with
  | Except.error msg =>
      addLog (addLog q.2 ("::warning::Tree command execution error: " ++ msg))
        "    ▶ Error executing tree command."
  | Except.ok tree =>
      if tree.exitCode = 0 ∧ tree.stdout ≠ "" then
        addLog q.2 (formatBlock tree.stdout "    ")
      else if env.runnerOS = some "Windows" then
        let st := addLog q.2 "    ▶ \x27tree\x27 command failed or not found. Using \x27cmd /c tree /F /A\x27 for Windows (basic):"
        let w := invoke env.exec st "cmd" (winTreeArgs env)
        match w.1 with
        | Except.error msg =>
            addLog (addLog w.2 ("::warning::Tree command execution error: " ++ msg))
              "    ▶ Error executing tree command."
        | Except.ok winTree =>
            if winTree.exitCode = 0 ∧ winTree.stdout ≠ "" then
              addLog w.2 (formatBlock winTree.stdout "      ")
            else
              addLog w.2 "    ▶ Windows \x27tree\x27 command also failed or directory is empty."
      else
        addLog q.2 "    ▶ \x27tree\x27 command not found or failed. Please install it on the runner for a detailed view."

/-- Section 4 of `run` (src/index.js lines 124-160): when the
extended-info flag is set, probe the Java installation and the workspace
directory tree; otherwise do nothing at all.  The Java query sits outside
the inner try/catch, so its rejection (missing java executable)
propagates to the top level; the tree block's rejections are caught
locally by `treeSection`. -/
def stageExtendedInfo (env : RunEnv) (st : RunState) : StepResult :=
  if showExtendedInfo env.showExtendedInfoInput then
    let st := addLog st "::group::☕ Java Environment & 📁 Directory Structure"
    let st := addLog st "===========================\x3d=========================="
    let st := addLog st "  JAVA DETAILS:"
    let qj := invoke env.exec st "java" ["-version"]
    match qj.1 with
    | Except.error msg => StepResult.failed msg qj.2
    | Except.ok javaVersionCmd =>
        let st := qj.2
        let st :=
          match javaProbe javaVersionCmd with
          | JavaOutcome.version text =>
              let st := addLog st "    ▶ Version:"
              let st := addLog st (formatBlock text "      --> ")
              addLog st ("    ▶ JAVA_HOME:    " ++ jsOr (envStr env.javaHome) "N/A (Not explicitly set or found)")
          | JavaOutcome.notFound =>
              addLog st "    ▶ Java not found in PATH or -version command failed."
        let st := addLog st ""
        let st := addLog st "  DIRECTORY TREE (current workspace, max depth 3):"
        let st := treeSection env st
        let st := addLog st "===========================\x3d=========================="
        StepResult.ok (addLog st "::endgroup::")
  else StepResult.ok st

/-- The body of `run` inside its try block: the four sections in order; a
raise in any section skips the rest. -/
def runBody (env : RunEnv) (st : RunState) : StepResult :=
  let (timestamp, st) := stageTimestamp env st
  match stageOSDetails env timestamp st with
  | StepResult.failed msg st => StepResult.failed msg st
  | StepResult.ok st =>
    match stageGitDetails env st with
    | StepResult.failed msg st => StepResult.failed msg st
    | StepResult.ok st => stageExtendedInfo env st

/-- Final observable outcome of one run: the state, and the failure
message passed to `core.setFailed` when the top-level catch fired. -/
structure RunOutcome where
  state : RunState
  failed : Option String
deriving DecidableEq, Repr

/-- `run` from src/index.js lines 36-168: the four sections wrapped in the
single top-level try/catch; an uncaught error marks the run failed. -/
def run (env : RunEnv) : RunOutcome :=
  match runBody env { log := [], outputs := [], trace := [] } with
  | StepResult.ok st => { state := st, failed := none }
  | StepResult.failed msg st =>
      { state := addLog st ("::error::Action failed: " ++ msg), failed := some msg }

/-! ### Helper lemmas -/

theorem addLog_outputs (st : RunState) (l : String) : (addLog st l).outputs = st.outputs := rfl

theorem addLog_trace (st : RunState) (l : String) : (addLog st l).trace = st.trace := rfl

theorem addTrace_outputs (st : RunState) (c : String) (a : List String) :
    (addTrace st c a).outputs = st.outputs := rfl

theorem addTrace_trace (st : RunState) (c : String) (a : List String) :
    (addTrace st c a).trace = st.trace ++ [(c, a)] := rfl

theorem invoke_found (e : ExecEnv) (st : RunState) (c : String) (a : List String)
    (h : e.found c = true) :
    invoke e st c a = (Except.ok (gcoRun e c a), addTrace st c a) := by
  simp [invoke, gco_found e c a h]

theorem invoke_missing (e : ExecEnv) (st : RunState) (c : String) (a : List String)
    (h : e.found c = false) :
    invoke e st c a =
      (Except.error ("Unable to locate executable file: " ++ c), addTrace st c a) := by
  simp [invoke, gco_missing e c a h]

theorem invoke_fst (e : ExecEnv) (st : RunState) (c : String) (a : List String) :
    (invoke e st c a).1 = getCommandOutput e c a := rfl

theorem invoke_snd (e : ExecEnv) (st : RunState) (c : String) (a : List String) :
    (invoke e st c a).2 = addTrace st c a := rfl

/-! ### C3: the command-execution helper never raises on a non-zero exit -/

/-- C3. For every command whose executable is present, and every behaviour
of the child process — non-zero exit codes included — `getCommandOutput`
resolves (it never raises for a non-zero exit code) with the trimmed
captured stdout, the trimmed captured stderr and the exact exit code, and
its options suppress the streams from the parent's own output (`silent`)
while disabling the raise-on-non-zero behaviour (`ignoreReturnCode`). -/
theorem getCommandOutput_never_raises (e : ExecEnv) (command : String) (args : List String)
    (h : e.found command = true) :
    getCommandOutput e command args =
      Except.ok { stdout := jsTrim (e.runOf command args).stdout
                  stderr := jsTrim (e.runOf command args).stderr
                  exitCode := (e.runOf command args).exitCode } ∧
    gcoOptions.silent = true ∧ gcoOptions.ignoreReturnCode = true := by
  refine ⟨?_, rfl, rfl⟩
  simp [getCommandOutput, execExec, gcoOptions, h]

theorem getCommandOutput_witness :
    (ExecEnv.mk (fun _ => true) (fun _ _ => RawResult.mk " out " " err " 3)).found "false" = true ∧
    getCommandOutput (ExecEnv.mk (fun _ => true) (fun _ _ => RawResult.mk " out " " err " 3))
      "false" [] = Except.ok (CommandResult.mk "out" "err" 3) := by
  refine ⟨rfl, ?_⟩
  rw [(getCommandOutput_never_raises
    (ExecEnv.mk (fun _ => true) (fun _ _ => RawResult.mk " out " " err " 3)) "false" [] rfl).1]
  rfl

/-! ### C2: Linux with no /etc/os-release and a failing or absent lsb_release -/

/-- C2 (amended). On a Linux runner without `/etc/os-release`: when the
`lsb_release` executable is present but the query fails (non-zero exit
code) or prints nothing, the distro info is reported as `N/A` and the
underlying `getCommandOutput` call resolves rather than raising; when the
`lsb_release` executable is absent, the awaited call rejects with
`Unable to locate executable file`, the distro step propagates that raise
(handled only by the top-level catch), and no `N/A` is reported. -/
theorem linux_distro_na_when_no_osrelease_and_lsb_fails
    (e : ExecEnv) (content : String) (st : RunState) :
    (e.found "lsb_release" = true →
      (e.runOf "lsb_release" ["-a"]).exitCode ≠ 0 ∨ jsTrim (e.runOf "lsb_release" ["-a"]).stdout = "" →
      linuxDistroStep e false content st = (Except.ok "N/A", addTrace st "lsb_release" ["-a"]) ∧
      getCommandOutput e "lsb_release" ["-a"] = Except.ok (gcoRun e "lsb_release" ["-a"])) ∧
    (e.found "lsb_release" = false →
      getCommandOutput e "lsb_release" ["-a"] =
        Except.error "Unable to locate executable file: lsb_release" ∧
      linuxDistroStep e false content st =
        (Except.error "Unable to locate executable file: lsb_release",
          addTrace st "lsb_release" ["-a"])) := by
  constructor
  · intro hfound h
    refine ⟨?_, gco_found e "lsb_release" ["-a"] hfound⟩
    rw [linuxDistroStep, if_neg (by simp), invoke_found e st "lsb_release" ["-a"] hfound]
    simp only [gcoRun]
    rcases h with h | h <;> simp [h]
  · intro hmissing
    have hmsg : ("Unable to locate executable file: " ++ "lsb_release") =
        "Unable to locate executable file: lsb_release" := rfl
    refine ⟨by rw [gco_missing e "lsb_release" ["-a"] hmissing, hmsg], ?_⟩
    rw [linuxDistroStep, if_neg (by simp), invoke_missing e st "lsb_release" ["-a"] hmissing, hmsg]

theorem linux_distro_na_witness :
    linuxDistroStep (ExecEnv.mk (fun _ => true) (fun _ _ => RawResult.mk "" "" 127))
        false "" (RunState.mk [] [] []) =
      (Except.ok "N/A", addTrace (RunState.mk [] [] []) "lsb_release" ["-a"]) ∧
    linuxDistroStep (ExecEnv.mk (fun _ => false) (fun _ _ => RawResult.mk "" "" 0))
        false "" (RunState.mk [] [] []) =
      (Except.error "Unable to locate executable file: lsb_release",
        addTrace (RunState.mk [] [] []) "lsb_release" ["-a"]) :=
  ⟨((linux_distro_na_when_no_osrelease_and_lsb_fails
      (ExecEnv.mk (fun _ => true) (fun _ _ => RawResult.mk "" "" 127)) ""
      (RunState.mk [] [] [])).1 rfl (Or.inl (by decide))).1,
   ((linux_distro_na_when_no_osrelease_and_lsb_fails
      (ExecEnv.mk (fun _ => false) (fun _ _ => RawResult.mk "" "" 0)) ""
      (RunState.mk [] [] [])).2 rfl).2⟩

/-! ### C5: the Java probe -/

/-- C5. The Java probe reports not-found exactly when the version query
exited non-zero or both captured streams are empty; when the exit code is
zero and a stream is nonempty, the reported text is the stderr text
whenever that is nonempty, and the stdout text otherwise. -/
theorem java_probe_prefers_stderr (r : CommandResult) :
    (javaProbe r = JavaOutcome.notFound ↔
      (r.exitCode ≠ 0 ∨ (r.stdout = "" ∧ r.stderr = ""))) ∧
    (r.exitCode = 0 → r.stderr ≠ "" → javaProbe r = JavaOutcome.version r.stderr) ∧
    (r.exitCode = 0 → r.stderr = "" → r.stdout ≠ "" → javaProbe r = JavaOutcome.version r.stdout) := by
  refine ⟨?_, ?_, ?_⟩
  · constructor
    · intro h
      by_contra hc
      push_neg at hc
      obtain ⟨h0, h1⟩ := hc
      rcases eq_or_ne r.stdout "" with hs | hs
      · simp [javaProbe, h0, hs, h1 hs] at h
      · simp [javaProbe, h0, hs] at h
    · intro h
      rcases h with h | ⟨h1, h2⟩
      · simp [javaProbe, h]
      · simp [javaProbe, h1, h2]
  · intro h0 hs
    simp [javaProbe, h0, hs, jsOr]
  · intro h0 hs ho
    simp [javaProbe, h0, hs, ho, jsOr]

theorem java_probe_witness :
    javaProbe (CommandResult.mk "" "openjdk 17" 0) = JavaOutcome.version "openjdk 17" ∧
    javaProbe (CommandResult.mk "out" "err" 1) = JavaOutcome.notFound :=
  ⟨(java_probe_prefers_stderr (CommandResult.mk "" "openjdk 17" 0)).2.1 rfl (by decide),
   (java_probe_prefers_stderr (CommandResult.mk "out" "err" 1)).1.mpr (Or.inl (by decide))⟩

/-! ### C6: the directory-tree probe and its Windows fallback -/

/-- C6. The Windows-native tree fallback is invoked exactly when the
runner OS family is Windows and the primary `tree` invocation reported a
non-zero exit code or empty output; on any non-Windows runner whose
primary invocation fails the probe reports the unavailability message
(never a manual recursive listing, which no outcome of the probe
performs), and when the Windows fallback itself fails the probe reports
the fallback-failure message. -/
theorem tree_probe_windows_fallback (runnerOS : Option String) (tree winTree : CommandResult) :
    ((treeProbe runnerOS tree winTree).2 = true ↔
      (runnerOS = some "Windows" ∧ (tree.exitCode ≠ 0 ∨ tree.stdout = ""))) ∧
    (runnerOS ≠ some "Windows" → tree.exitCode ≠ 0 ∨ tree.stdout = "" →
      treeProbe runnerOS tree winTree = (TreeOutcome.unavailable, false)) ∧
    (runnerOS = some "Windows" → tree.exitCode ≠ 0 ∨ tree.stdout = "" →
      winTree.exitCode ≠ 0 ∨ winTree.stdout = "" →
      treeProbe runnerOS tree winTree = (TreeOutcome.winFailed, true)) := by
  have hfail : ∀ (r : CommandResult), (r.exitCode ≠ 0 ∨ r.stdout = "") →
      ¬(r.exitCode = 0 ∧ r.stdout ≠ "") := by
    rintro r (h | h) ⟨h0, h1⟩
    · exact h h0
    · exact h1 h
  refine ⟨?_, ?_, ?_⟩
  · constructor
    · intro h
      by_cases h1 : tree.exitCode = 0 ∧ tree.stdout ≠ ""
      · simp [treeProbe, h1] at h
      · by_cases h2 : runnerOS = some "Windows"
        · refine ⟨h2, ?_⟩
          rcases not_and_or.mp h1 with h3 | h3
          · exact Or.inl h3
          · exact Or.inr (not_not.mp h3)
        · simp [treeProbe, h1, h2] at h
    · rintro ⟨h2, h3⟩
      have h1 := hfail tree h3
      by_cases h4 : winTree.exitCode = 0 ∧ winTree.stdout ≠ ""
      · simp [treeProbe, h1, h2, h4]
      · simp [treeProbe, h1, h2, h4]
  · intro h2 h3
    simp [treeProbe, hfail tree h3, h2]
  · intro h2 h3 h4
    simp [treeProbe, hfail tree h3, h2, hfail winTree h4]

theorem tree_probe_witness :
    treeProbe (some "Linux") (CommandResult.mk "" "not found" 127) (CommandResult.mk "x" "" 0) =
      (TreeOutcome.unavailable, false) ∧
    treeProbe (some "Windows") (CommandResult.mk "" "" 1) (CommandResult.mk "" "" 1) =
      (TreeOutcome.winFailed, true) :=
  ⟨(tree_probe_windows_fallback (some "Linux") (CommandResult.mk "" "not found" 127)
      (CommandResult.mk "x" "" 0)).2.1 (by decide) (Or.inl (by decide)),
   (tree_probe_windows_fallback (some "Windows") (CommandResult.mk "" "" 1)
      (CommandResult.mk "" "" 1)).2.2 rfl (Or.inl (by decide)) (Or.inl (by decide))⟩

/-! ### C7: /etc/os-release parsing -/

/-- C7. Given `/etc/os-release` content whose `PRETTY_NAME` line is
`PRETTY_NAME="Test OS 1.0"`, the distro info is exactly `Test OS 1.0`
(quotes stripped); and for any content with no `PRETTY_NAME=` line, the
distro info is the space-joined values of the `NAME=` and `VERSION=`
lines. -/
theorem osrelease_pretty_name_extraction :
    distroFromOsRelease "NAME=\"Test OS\"\nPRETTY_NAME=\"Test OS 1.0\"\nVERSION=\"1.0\"" =
      "Test OS 1.0" ∧
    ∀ content : String,
      (∀ l ∈ jsSplitChar content '\n', strHasPrefix l "PRETTY_NAME=" = false) →
      distroFromOsRelease content =
        jsJoin " " (((jsSplitChar content '\n').filter
          (fun l => strHasPrefix l "NAME=" || strHasPrefix l "VERSION=")).map stripOsrValue) := by
  constructor
  · decide
  · intro content hnone
    have hfilter : (jsSplitChar content '\n').filter
        (fun l => strHasPrefix l "PRETTY_NAME=") = [] := by
      rw [List.filter_eq_nil_iff]
      intro a ha
      simp [hnone a ha]
    simp [distroFromOsRelease, hfilter, jsJoin]

theorem osrelease_witness :
    (∀ l ∈ jsSplitChar "NAME=\"Ubu\"\nVERSION=\"22.04\"" '\n',
      strHasPrefix l "PRETTY_NAME=" = false) ∧
    distroFromOsRelease "NAME=\"Ubu\"\nVERSION=\"22.04\"" = "Ubu 22.04" :=
  ⟨by decide,
   by
    rw [(osrelease_pretty_name_extraction).2 "NAME=\"Ubu\"\nVERSION=\"22.04\"" (by decide)]
    decide⟩

/-! ### C9: the extended-info flag parses only the exact string true -/

/-- C9. The extended-info flag is on exactly when the configuration input
string is the lowercase string `true`; in particular `True`, `TRUE`, `1`
and the empty string all leave it off. -/
theorem extended_flag_strict_equality :
    (∀ raw : String, showExtendedInfo raw = true ↔ raw = "true") ∧
    showExtendedInfo "True" = false ∧
    showExtendedInfo "TRUE" = false ∧
    showExtendedInfo "1" = false ∧
    showExtendedInfo "" = false := by
  refine ⟨?_, by decide, by decide, by decide, by decide⟩
  intro raw
  simp [showExtendedInfo]

theorem extended_flag_witness :
    showExtendedInfo "true" = true :=
  (extended_flag_strict_equality.1 "true").mpr rfl

/-! ### C10: env-variable fallbacks for branch and SHA, and the short SHA -/

/-- C10. For the branch name and commit SHA, an ambient variable set to
the empty string behaves exactly like an unset one: the git rev-parse
fallback is issued (recorded in the trace whether or not the executable
resolves) and, when git is present, its trimmed stdout is used; the
variable's value is used directly, with no query, only when nonempty.
The short SHA is always the first `min 7 (length)` characters of the
commit-SHA string, and its computation is total — on the empty string it
returns the empty string. -/
theorem env_fallback_and_short_sha (e : ExecEnv) (st : RunState)
    (command : String) (args : List String) :
    (∀ v : Option String, v = none ∨ v = some "" →
      (envOrGitQuery e st v command args).2 = addTrace st command args ∧
      (e.found command = true →
        envOrGitQuery e st v command args =
          (Except.ok (jsTrim (e.runOf command args).stdout), addTrace st command args))) ∧
    (∀ s : String, s ≠ "" →
      envOrGitQuery e st (some s) command args = (Except.ok s, st)) ∧
    (∀ sha : String, shortShaOf sha = jsTake sha 7 ∧
      (shortShaOf sha).length = min 7 sha.length) ∧
    shortShaOf "" = "" := by
  refine ⟨?_, ?_, ?_, rfl⟩
  · have key : ∀ v : Option String, v = none ∨ v = some "" →
        envOrGitQuery e st v command args =
          (match getCommandOutput e command args with
            | Except.error msg => (Except.error msg, addTrace st command args)
            | Except.ok r => (Except.ok r.stdout, addTrace st command args)) := by
      rintro v (rfl | rfl) <;>
        · rw [envOrGitQuery, if_neg (by simp [envStr]), invoke]
          cases getCommandOutput e command args <;> rfl
    rintro v hv
    constructor
    · rw [key v hv]
      cases getCommandOutput e command args <;> rfl
    · intro hfound
      rw [key v hv, gco_found e command args hfound]
      rfl
  · intro s hs
    simp [envOrGitQuery, envStr, hs]
  · intro sha
    refine ⟨rfl, ?_⟩
    show (sha.data.take 7).length = min 7 sha.data.length
    exact List.length_take 7 sha.data

theorem env_fallback_witness :
    envOrGitQuery (ExecEnv.mk (fun _ => true) (fun _ _ => RawResult.mk " main \n" "" 0))
        (RunState.mk [] [] []) (some "") "git" ["rev-parse", "--abbrev-ref", "HEAD"] =
      (Except.ok "main",
        addTrace (RunState.mk [] [] []) "git" ["rev-parse", "--abbrev-ref", "HEAD"]) ∧
    envOrGitQuery (ExecEnv.mk (fun _ => true) (fun _ _ => RawResult.mk " main \n" "" 0))
        (RunState.mk [] [] []) (some "feature") "git" ["rev-parse", "HEAD"] =
      (Except.ok "feature", RunState.mk [] [] []) ∧
    shortShaOf "0123456789abcdef" = "0123456" := by
  refine ⟨?_, ?_, ?_⟩
  · have h := ((env_fallback_and_short_sha
      (ExecEnv.mk (fun _ => true) (fun _ _ => RawResult.mk " main \n" "" 0))
      (RunState.mk [] [] []) "git" ["rev-parse", "--abbrev-ref", "HEAD"]).1
      (some "") (Or.inr rfl)).2 rfl
    rw [h]
    rfl
  · exact (env_fallback_and_short_sha
      (ExecEnv.mk (fun _ => true) (fun _ _ => RawResult.mk " main \n" "" 0))
      (RunState.mk [] [] []) "git" ["rev-parse", "HEAD"]).2.1 "feature" (by decide)
  · decide

/-! ### Decimal-digit facts about Nat.repr, for the timestamp format -/

theorem strLength_mk (l : List Char) : (String.mk l).length = l.length := rfl

theorem strData_mk (l : List Char) : (String.mk l).data = l := rfl

theorem digitChar_isDigit : ∀ m : Nat, m < 10 → (Nat.digitChar m).isDigit = true := by decide

theorem toDigitsCore_all_digits :
    ∀ (f n : Nat) (l : List Char), (∀ c ∈ l, c.isDigit = true) →
      ∀ c ∈ Nat.toDigitsCore 10 f n l, c.isDigit = true := by
  intro f
  induction f with
  | zero => intro n l hl c hc; exact hl c hc
  | succ f ih =>
    intro n l hl c hc
    have hdl : ∀ c ∈ Nat.digitChar (n % 10) :: l, c.isDigit = true := by
      intro c hc
      rcases List.mem_cons.mp hc with rfl | hc
      · exact digitChar_isDigit _ (Nat.mod_lt _ (by decide))
      · exact hl c hc
    rw [Nat.toDigitsCore] at hc
    by_cases h : n / 10 = 0
    · rw [if_pos h] at hc
      exact hdl c hc
    · rw [if_neg h] at hc
      exact ih (n / 10) _ hdl c hc

theorem toDigitsCore_len_le :
    ∀ (f n : Nat) (l : List Char), l.length ≤ (Nat.toDigitsCore 10 f n l).length := by
  intro f
  induction f with
  | zero => intro n l; exact Nat.le_refl _
  | succ f ih =>
    intro n l
    rw [Nat.toDigitsCore]
    by_cases h : n / 10 = 0
    · rw [if_pos h]
      exact Nat.le_succ_of_le (Nat.le_refl _)
    · rw [if_neg h]
      calc l.length ≤ (Nat.digitChar (n % 10) :: l).length := Nat.le_succ_of_le (Nat.le_refl _)
        _ ≤ _ := ih (n / 10) _

theorem toDigitsCore_len_lower :
    ∀ (k f n : Nat) (l : List Char), 10 ^ k ≤ n → k + 1 ≤ f →
      k + 1 + l.length ≤ (Nat.toDigitsCore 10 f n l).length := by
  intro k
  induction k with
  | zero =>
    intro f n l hn hf
    obtain ⟨f, rfl⟩ : ∃ g, f = g + 1 := ⟨f - 1, by omega⟩
    rw [Nat.toDigitsCore]
    by_cases h : n / 10 = 0
    · rw [if_pos h]
      simp only [List.length_cons]
      omega
    · rw [if_neg h]
      have := toDigitsCore_len_le f (n / 10) (Nat.digitChar (n % 10) :: l)
      simp only [List.length_cons] at this
      omega
  | succ k ih =>
    intro f n l hn hf
    obtain ⟨f, rfl⟩ : ∃ g, f = g + 1 := ⟨f - 1, by omega⟩
    have h10 : (10 : Nat) ≤ n := le_trans (Nat.le_self_pow (Nat.succ_ne_zero k) 10) hn
    have hne : n / 10 ≠ 0 := by
      have : 1 ≤ n / 10 := (Nat.one_le_div_iff (by norm_num)).mpr h10
      omega
    rw [Nat.toDigitsCore, if_neg hne]
    have hdiv : 10 ^ k ≤ n / 10 := by
      rw [Nat.le_div_iff_mul_le (by norm_num)]
      calc 10 ^ k * 10 = 10 ^ (k + 1) := (pow_succ 10 k).symm
        _ ≤ n := hn
    have := ih f (n / 10) (Nat.digitChar (n % 10) :: l) hdiv (by omega)
    simp only [List.length_cons] at this
    omega

theorem repr_year_four (y : Nat) (h1 : 1000 ≤ y) (h2 : y < 10000) :
    (Nat.repr y).length = 4 ∧ ∀ c ∈ (Nat.repr y).data, c.isDigit = true := by
  have hdata : (Nat.repr y).data = Nat.toDigitsCore 10 (y + 1) y [] := rfl
  constructor
  · have hup : (Nat.repr y).length ≤ 4 := Nat.repr_length y 4 (by norm_num) (by omega)
    have hlow := toDigitsCore_len_lower 3 (y + 1) y [] (by norm_num; omega) (by omega)
    have hlen : (Nat.repr y).length = (Nat.toDigitsCore 10 (y + 1) y []).length := rfl
    simp only [List.length_nil] at hlow
    omega
  · intro c hc
    rw [hdata] at hc
    exact toDigitsCore_all_digits (y + 1) y [] (by simp) c hc

theorem pad2_shape : ∀ n : Nat, n < 100 →
    (padStart (Nat.repr n) 2 '0').length = 2 ∧
    ∀ c ∈ (padStart (Nat.repr n) 2 '0').data, c.isDigit = true := by decide

/-- Checker for the exact timestamp shape `YYYY-MM-DD HH:MM:SS UTC`:
twenty-three characters, digits at the date and time positions, literal
separators, and the literal `UTC` suffix. -/
def tsWellFormed (s : String) : Bool :=
  match s.data with
  | [y1, y2, y3, y4, c1, m1, m2, c2, d1, d2, c3, h1, h2, c4, n1, n2, c5, s1, s2, c6, u, t, c] =>
    y1.isDigit && y2.isDigit && y3.isDigit && y4.isDigit &&
    m1.isDigit && m2.isDigit && d1.isDigit && d2.isDigit &&
    h1.isDigit && h2.isDigit && n1.isDigit && n2.isDigit &&
    s1.isDigit && s2.isDigit &&
    (c1 = '-') && (c2 = '-') && (c3 = ' ') && (c4 = ':') && (c5 = ':') && (c6 = ' ') &&
    (u = 'U') && (t = 'T') && (c = 'C')
  | _ => false

theorem listLenFour {α : Type} {l : List α} (h : l.length = 4) :
    ∃ a b c d, l = [a, b, c, d] := by
  rcases l with _ | ⟨a, _ | ⟨b, _ | ⟨c, _ | ⟨d, rest⟩⟩⟩⟩ <;> simp_all

theorem listLenTwo {α : Type} {l : List α} (h : l.length = 2) :
    ∃ a b, l = [a, b] := by
  rcases l with _ | ⟨a, _ | ⟨b, rest⟩⟩ <;> simp_all

theorem tsWellFormed_parts (Y M D H N S : String)
    (hY4 : Y.length = 4) (hYd : ∀ c ∈ Y.data, c.isDigit = true)
    (hM2 : M.length = 2) (hMd : ∀ c ∈ M.data, c.isDigit = true)
    (hD2 : D.length = 2) (hDd : ∀ c ∈ D.data, c.isDigit = true)
    (hH2 : H.length = 2) (hHd : ∀ c ∈ H.data, c.isDigit = true)
    (hN2 : N.length = 2) (hNd : ∀ c ∈ N.data, c.isDigit = true)
    (hS2 : S.length = 2) (hSd : ∀ c ∈ S.data, c.isDigit = true) :
    tsWellFormed (Y ++ "-" ++ M ++ "-" ++ D ++ " " ++ H ++ ":" ++ N ++ ":" ++ S ++ " UTC") = true := by
  obtain ⟨ly⟩ := Y
  obtain ⟨lm⟩ := M
  obtain ⟨ld⟩ := D
  obtain ⟨lh⟩ := H
  obtain ⟨ln⟩ := N
  obtain ⟨ls⟩ := S
  simp only [strLength_mk, strData_mk] at hY4 hYd hM2 hMd hD2 hDd hH2 hHd hN2 hNd hS2 hSd
  obtain ⟨y1, y2, y3, y4, rfl⟩ := listLenFour hY4
  obtain ⟨m1, m2, rfl⟩ := listLenTwo hM2
  obtain ⟨d1, d2, rfl⟩ := listLenTwo hD2
  obtain ⟨h1, h2, rfl⟩ := listLenTwo hH2
  obtain ⟨n1, n2, rfl⟩ := listLenTwo hN2
  obtain ⟨s1, s2, rfl⟩ := listLenTwo hS2
  show tsWellFormed (String.mk
    [y1, y2, y3, y4, '-', m1, m2, '-', d1, d2, ' ', h1, h2, ':', n1, n2, ':', s1, s2, ' ', 'U', 'T', 'C']) = true
  simp only [tsWellFormed]
  simp [hYd y1 (by simp), hYd y2 (by simp), hYd y3 (by simp), hYd y4 (by simp),
    hMd m1 (by simp), hMd m2 (by simp), hDd d1 (by simp), hDd d2 (by simp),
    hHd h1 (by simp), hHd h2 (by simp), hNd n1 (by simp), hNd n2 (by simp),
    hSd s1 (by simp), hSd s2 (by simp)]

/-! ### Stage-level bookkeeping lemmas -/

def javaCmd : String × List String := ("java", ["-version"])

def authorCmd : String × List String := ("git", ["log", "-1", "--pretty=format:%an <%ae>"])

def extHeader : String := "::group::☕ Java Environment & 📁 Directory Structure"

theorem stageTimestamp_snd (env : RunEnv) (st : RunState) :
    (stageTimestamp env st).2.outputs = st.outputs ++ [("formatted_run_timestamp", makeTimestamp env.now)] ∧
    (stageTimestamp env st).2.trace = st.trace := ⟨rfl, rfl⟩

theorem stageOSDetails_outputs (env : RunEnv) (ts : String) (st : RunState) :
    (stageOSDetails env ts st).state.outputs = st.outputs := by
  unfold stageOSDetails linuxDistroStep
  dsimp only [invoke]
  repeat' split
  all_goals simp_all [StepResult.state, addLog, addTrace]

theorem stageGitQueries_outputs (env : RunEnv) (st : RunState) :
    (stageGitQueries env st).state.outputs = st.outputs := by
  unfold stageGitQueries envOrGitQuery
  dsimp only [invoke]
  repeat' split
  all_goals simp_all [StepResult.state, addLog, addTrace]

theorem stageGitDetails_outputs (env : RunEnv) (st : RunState) :
    (stageGitDetails env st).state.outputs = st.outputs := by
  unfold stageGitDetails
  dsimp only
  split
  · split
    · rfl
    · rw [stageGitQueries_outputs]
      rfl
  · rw [stageGitQueries_outputs]
    rfl

theorem treeSection_outputs (env : RunEnv) (st : RunState) :
    (treeSection env st).outputs = st.outputs := by
  unfold treeSection
  dsimp only [invoke]
  repeat' split
  all_goals simp_all [addLog, addTrace]

theorem stageExtendedInfo_outputs (env : RunEnv) (st : RunState) :
    (stageExtendedInfo env st).state.outputs = st.outputs := by
  unfold stageExtendedInfo
  dsimp only [invoke]
  repeat' split
  all_goals simp_all [StepResult.state, treeSection_outputs, addLog, addTrace]

theorem runBody_eq (env : RunEnv) (st : RunState) :
    runBody env st =
      match stageOSDetails env (stageTimestamp env st).1 (stageTimestamp env st).2 with
      | StepResult.failed msg s => StepResult.failed msg s
      | StepResult.ok s =>
        match stageGitDetails env s with
        | StepResult.failed msg s => StepResult.failed msg s
        | StepResult.ok s => stageExtendedInfo env s := rfl

theorem run_outputs (env : RunEnv) :
    (run env).state.outputs = [("formatted_run_timestamp", makeTimestamp env.now)] := by
  have e1 : (stageTimestamp env (RunState.mk [] [] [])).2.outputs =
      [("formatted_run_timestamp", makeTimestamp env.now)] := rfl
  unfold run
  rw [runBody_eq]
  cases h2 : stageOSDetails env (stageTimestamp env (RunState.mk [] [] [])).1
      (stageTimestamp env (RunState.mk [] [] [])).2 with
  | failed msg s =>
      have h := stageOSDetails_outputs env (stageTimestamp env (RunState.mk [] [] [])).1
        (stageTimestamp env (RunState.mk [] [] [])).2
      rw [h2] at h
      simp only [StepResult.state] at h
      dsimp only
      rw [addLog_outputs, h]
      exact e1
  | ok s =>
      have h := stageOSDetails_outputs env (stageTimestamp env (RunState.mk [] [] [])).1
        (stageTimestamp env (RunState.mk [] [] [])).2
      rw [h2] at h
      simp only [StepResult.state] at h
      dsimp only
      cases h3 : stageGitDetails env s with
      | failed msg s2 =>
          have hg := stageGitDetails_outputs env s
          rw [h3] at hg
          simp only [StepResult.state] at hg
          dsimp only
          rw [addLog_outputs, hg, h]
          exact e1
      | ok s2 =>
          have hg := stageGitDetails_outputs env s
          rw [h3] at hg
          simp only [StepResult.state] at hg
          dsimp only
          cases h4 : stageExtendedInfo env s2 with
          | failed msg s3 =>
              have hx := stageExtendedInfo_outputs env s2
              rw [h4] at hx
              simp only [StepResult.state] at hx
              dsimp only
              rw [addLog_outputs, hx, hg, h]
              exact e1
          | ok s3 =>
              have hx := stageExtendedInfo_outputs env s2
              rw [h4] at hx
              simp only [StepResult.state] at hx
              dsimp only
              rw [hx, hg, h]
              exact e1

theorem linuxDistroStep_snd (e : ExecEnv) (b : Bool) (content : String) (st : RunState) :
    (linuxDistroStep e b content st).2 =
      if b then st else addTrace st "lsb_release" ["-a"] := by
  unfold linuxDistroStep
  split <;> rfl

theorem envOrGitQuery_snd (e : ExecEnv) (st : RunState) (v : Option String)
    (command : String) (args : List String) :
    (envOrGitQuery e st v command args).2 =
      if envStr v ≠ "" then st else addTrace st command args := by
  unfold envOrGitQuery
  split <;> rfl

theorem stageOSDetails_trace_mem (env : RunEnv) (ts : String) (x : String × List String)
    (h1 : x.1 ≠ "lsb_release") (h2 : x.1 ≠ "sw_vers") (h3 : x.1 ≠ "powershell")
    (st : RunState) :
    x ∈ (stageOSDetails env ts st).state.trace ↔ x ∈ st.trace := by
  have e1 : ∀ a : List String, x ≠ ("lsb_release", a) := fun a h => h1 (by rw [h])
  have e2 : ∀ a : List String, x ≠ ("sw_vers", a) := fun a h => h2 (by rw [h])
  have e3 : ∀ a : List String, x ≠ ("powershell", a) := fun a h => h3 (by rw [h])
  unfold stageOSDetails
  dsimp only
  simp only [linuxDistroStep_snd, invoke_snd]
  repeat' split
  all_goals simp [StepResult.state, addLog, addTrace, List.mem_append, e1, e2, e3]

theorem stageGitQueries_trace_mem (env : RunEnv) (x : String × List String)
    (hg : x.1 ≠ "git") (st : RunState) :
    x ∈ (stageGitQueries env st).state.trace ↔ x ∈ st.trace := by
  have e : ∀ a : List String, x ≠ ("git", a) := fun a h => hg (by rw [h])
  unfold stageGitQueries
  dsimp only
  simp only [envOrGitQuery_snd, invoke_snd]
  repeat' split
  all_goals simp [StepResult.state, addLog, addTrace, List.mem_append, e]

theorem stageGitDetails_trace_mem (env : RunEnv) (x : String × List String)
    (hg : x.1 ≠ "git") (st : RunState) :
    x ∈ (stageGitDetails env st).state.trace ↔ x ∈ st.trace := by
  have e : ∀ a : List String, x ≠ ("git", a) := fun a h => hg (by rw [h])
  unfold stageGitDetails
  dsimp only
  split
  · split
    · simp [StepResult.state, addLog, addTrace, List.mem_append, e]
    · rw [stageGitQueries_trace_mem env x hg]
      simp [addLog, addTrace, List.mem_append, e]
  · rw [stageGitQueries_trace_mem env x hg]
    simp [addLog]

theorem treeSection_trace_mono (env : RunEnv) (st : RunState)
    (x : String × List String) (h : x ∈ st.trace) :
    x ∈ (treeSection env st).trace := by
  unfold treeSection
  try dsimp only
  simp only [invoke_snd]
  repeat' split
  all_goals simp [addLog, addTrace, List.mem_append, h]

theorem treeSection_log_mono (env : RunEnv) (st : RunState)
    (x : String) (h : x ∈ st.log) :
    x ∈ (treeSection env st).log := by
  unfold treeSection
  try dsimp only
  simp only [invoke_snd]
  repeat' split
  all_goals simp [addLog, addTrace, List.mem_append, h]

theorem treeSection_tree_mem (env : RunEnv) (st : RunState) :
    ("tree", treeArgs env) ∈ (treeSection env st).trace := by
  unfold treeSection
  try dsimp only
  simp only [invoke_snd]
  repeat' split
  all_goals simp [addLog, addTrace, List.mem_append]

theorem stageExtendedInfo_off (env : RunEnv) (st : RunState)
    (h : showExtendedInfo env.showExtendedInfoInput = false) :
    stageExtendedInfo env st = StepResult.ok st := by
  simp [stageExtendedInfo, h]

theorem stageExtendedInfo_java_always (env : RunEnv) (st : RunState)
    (h : showExtendedInfo env.showExtendedInfoInput = true) :
    javaCmd ∈ (stageExtendedInfo env st).state.trace := by
  unfold stageExtendedInfo
  simp only [h, if_true]
  try dsimp only
  simp only [invoke_snd]
  repeat' split
  all_goals simp only [StepResult.state, addLog_trace]
  all_goals first
    | (simp [addTrace, List.mem_append, javaCmd]; done)
    | (apply treeSection_trace_mono; simp [addLog, addTrace, List.mem_append, javaCmd])

theorem addLog_log_mem_left (st : RunState) (l x : String) (h : x ∈ st.log) :
    x ∈ (addLog st l).log := by
  simp [addLog, List.mem_append, h]

theorem stageExtendedInfo_on (env : RunEnv) (st : RunState)
    (h : showExtendedInfo env.showExtendedInfoInput = true)
    (hjava : env.exec.found "java" = true) :
    ∃ st', stageExtendedInfo env st = StepResult.ok st' ∧
      ("tree", treeArgs env) ∈ st'.trace ∧ extHeader ∈ st'.log := by
  unfold stageExtendedInfo
  simp only [h, if_true]
  try dsimp only
  simp only [invoke_fst, invoke_snd, gco_found env.exec "java" ["-version"] hjava]
  try dsimp only
  repeat' split
  all_goals refine ⟨_, rfl, ?_, ?_⟩
  all_goals first
    | (simp only [addLog_trace]; exact treeSection_tree_mem env _)
    | (apply addLog_log_mem_left; apply addLog_log_mem_left; apply treeSection_log_mono; simp [addLog, addTrace, extHeader, List.mem_append])

theorem stageExtendedInfo_ok (env : RunEnv) (st : RunState)
    (hjava : env.exec.found "java" = true) :
    ∃ st', stageExtendedInfo env st = StepResult.ok st' ∧
      ∀ x ∈ st.trace, x ∈ st'.trace := by
  cases hflag : showExtendedInfo env.showExtendedInfoInput with
  | false =>
      exact ⟨st, stageExtendedInfo_off env st hflag, fun x hx => hx⟩
  | true =>
      unfold stageExtendedInfo
      simp only [hflag, if_true]
      try dsimp only
      simp only [invoke_fst, invoke_snd, gco_found env.exec "java" ["-version"] hjava]
      try dsimp only
      repeat' split
      all_goals refine ⟨_, rfl, fun x hx => ?_⟩
      all_goals (simp only [addLog_trace]; apply treeSection_trace_mono; simp [addLog, addTrace, List.mem_append, hx])

theorem linuxDistroStep_fst_not_error (e : ExecEnv) (b : Bool) (content : String)
    (st : RunState) (hf : e.found "lsb_release" = true) (msg : String) :
    (linuxDistroStep e b content st).1 ≠ Except.error msg := by
  unfold linuxDistroStep
  split
  · simp
  · simp [invoke_fst, gco_found e "lsb_release" ["-a"] hf]

theorem stageOSDetails_ok (env : RunEnv) (ts : String) (st : RunState)
    (hf : ∀ c, env.exec.found c = true) :
    ∃ st', stageOSDetails env ts st = StepResult.ok st' := by
  unfold stageOSDetails
  try dsimp only
  simp only [invoke_fst, invoke_snd, gco_found, hf]
  repeat' split
  all_goals first
    | exact ⟨_, rfl⟩
    | (exfalso; exact linuxDistroStep_fst_not_error env.exec env.osReleaseExists
        env.osReleaseContent _ (hf "lsb_release") _ (by assumption))

theorem envOrGitQuery_fst_not_error (e : ExecEnv) (st : RunState) (v : Option String)
    (command : String) (args : List String) (hf : e.found command = true) (msg : String) :
    (envOrGitQuery e st v command args).1 ≠ Except.error msg := by
  unfold envOrGitQuery
  split
  · simp
  · simp [invoke_fst, gco_found e command args hf]

theorem stageGitQueries_ok (env : RunEnv) (st : RunState)
    (hgit : env.exec.found "git" = true) :
    ∃ st', stageGitQueries env st = StepResult.ok st' ∧ authorCmd ∈ st'.trace := by
  unfold stageGitQueries
  try dsimp only
  simp only [invoke_fst, invoke_snd, gco_found, hgit]
  repeat' split
  all_goals first
    | exact ⟨_, rfl, by simp [addLog, addTrace, List.mem_append, authorCmd]⟩
    | (exfalso; exact envOrGitQuery_fst_not_error env.exec _ _ _ _ hgit _ (by assumption))

theorem stageGitDetails_ok (env : RunEnv) (st : RunState)
    (hgit : env.exec.found "git" = true)
    (hcfg : envStr env.githubWorkspace ≠ "" →
      (env.exec.runOf "git" ["config", "--global", "--add", "safe.directory",
        envStr env.githubWorkspace]).exitCode = 0) :
    ∃ st', stageGitDetails env st = StepResult.ok st' ∧ authorCmd ∈ st'.trace := by
  unfold stageGitDetails
  try dsimp only
  by_cases hws : envStr env.githubWorkspace ≠ ""
  · rw [if_pos hws]
    have hexec : execExec env.exec defaultExecOptions "git"
        ["config", "--global", "--add", "safe.directory", envStr env.githubWorkspace] =
        Except.ok (env.exec.runOf "git" ["config", "--global", "--add", "safe.directory",
          envStr env.githubWorkspace]).exitCode := by
      simp [execExec, defaultExecOptions, hgit, hcfg hws]
    rw [hexec]
    exact stageGitQueries_ok env _ hgit
  · rw [if_neg hws]
    exact stageGitQueries_ok env _ hgit

theorem run_trace_flagOff_not_mem (env : RunEnv) (x : String × List String)
    (hflag : showExtendedInfo env.showExtendedInfoInput = false)
    (h1 : x.1 ≠ "lsb_release") (h2 : x.1 ≠ "sw_vers") (h3 : x.1 ≠ "powershell")
    (hg : x.1 ≠ "git") :
    x ∉ (run env).state.trace := by
  intro hmem
  have hts : (stageTimestamp env (RunState.mk [] [] [])).2.trace = [] := rfl
  unfold run at hmem
  rw [runBody_eq] at hmem
  cases h2s : stageOSDetails env (stageTimestamp env (RunState.mk [] [] [])).1
      (stageTimestamp env (RunState.mk [] [] [])).2 with
  | failed msg s =>
      rw [h2s] at hmem
      dsimp only at hmem
      rw [addLog_trace] at hmem
      have hiff := stageOSDetails_trace_mem env (stageTimestamp env (RunState.mk [] [] [])).1
        x h1 h2 h3 (stageTimestamp env (RunState.mk [] [] [])).2
      rw [h2s] at hiff
      simp only [StepResult.state] at hiff
      rw [hiff, hts] at hmem
      exact absurd hmem (List.not_mem_nil x)
  | ok s =>
      rw [h2s] at hmem
      dsimp only at hmem
      have hiff1 := stageOSDetails_trace_mem env (stageTimestamp env (RunState.mk [] [] [])).1
        x h1 h2 h3 (stageTimestamp env (RunState.mk [] [] [])).2
      rw [h2s] at hiff1
      simp only [StepResult.state] at hiff1
      cases h3s : stageGitDetails env s with
      | failed msg s2 =>
          rw [h3s] at hmem
          dsimp only at hmem
          rw [addLog_trace] at hmem
          have hiff2 := stageGitDetails_trace_mem env x hg s
          rw [h3s] at hiff2
          simp only [StepResult.state] at hiff2
          rw [hiff2, hiff1, hts] at hmem
          exact absurd hmem (List.not_mem_nil x)
      | ok s2 =>
          rw [h3s] at hmem
          dsimp only at hmem
          rw [stageExtendedInfo_off env s2 hflag] at hmem
          dsimp only at hmem
          have hiff2 := stageGitDetails_trace_mem env x hg s
          rw [h3s] at hiff2
          simp only [StepResult.state] at hiff2
          rw [hiff2, hiff1, hts] at hmem
          exact absurd hmem (List.not_mem_nil x)

/-! ### C8: the extended-info flag gates Java and directory-tree probes -/

/-- C8 (amended). When the extended-info flag is false, the extended stage
returns its state unchanged — neither probe executes and no extended-log
section is emitted — and over the whole run no `java -version` and no
`tree` invocation ever appears in the command trace.  When the flag is
true, the probes are attempted only if control reaches the extended
section (an earlier raise, such as the git safe-directory configuration
failure, skips both); once the section is reached, the Java probe is
attempted whatever the runner OS family is, and when the java executable
is present the stage completes with the directory-tree probe also
attempted and the section header logged. -/
theorem extended_section_gating (env : RunEnv) (st : RunState) :
    (showExtendedInfo env.showExtendedInfoInput = false →
      stageExtendedInfo env st = StepResult.ok st ∧
      javaCmd ∉ (run env).state.trace ∧
      ("tree", treeArgs env) ∉ (run env).state.trace) ∧
    (showExtendedInfo env.showExtendedInfoInput = true →
      javaCmd ∈ (stageExtendedInfo env st).state.trace ∧
      (env.exec.found "java" = true →
        ∃ st', stageExtendedInfo env st = StepResult.ok st' ∧
          ("tree", treeArgs env) ∈ st'.trace ∧ extHeader ∈ st'.log)) := by
  constructor
  · intro h
    refine ⟨stageExtendedInfo_off env st h, ?_, ?_⟩
    · exact run_trace_flagOff_not_mem env javaCmd h (by decide) (by decide) (by decide) (by decide)
    · exact run_trace_flagOff_not_mem env ("tree", treeArgs env) h
        (show ("tree" : String) ≠ "lsb_release" by decide)
        (show ("tree" : String) ≠ "sw_vers" by decide)
        (show ("tree" : String) ≠ "powershell" by decide)
        (show ("tree" : String) ≠ "git" by decide)
  · intro h
    exact ⟨stageExtendedInfo_java_always env st h, stageExtendedInfo_on env st h⟩

/-! ### Concrete environments for witnesses and counterexamples -/

/-- An environment where every executable resolves and every spawned
process exits zero. -/
def envAllOk : RunEnv :=
  { exec := { found := fun _ => true,
              runOf := fun _ _ => { stdout := "out", stderr := "", exitCode := 0 } },
    now := JSDate.mk 2024 2 5 7 2 9,
    showExtendedInfoInput := "true",
    runnerOS := some "Linux",
    githubWorkspace := some "/workspace",
    githubRepository := some "octo/demo",
    githubRefName := some "main",
    githubSha := some "0123456789abcdef",
    javaHome := some "/usr/lib/jvm",
    osType := "Linux", osRelease := "6.1", osVersion := "#1",
    osArch := "x64", osHostname := "runner",
    totalMemGB := "16.00", freeMemGB := "8.00",
    osReleaseExists := true,
    osReleaseContent := "PRETTY_NAME=\"Test OS 1.0\"" }

/-- Like `envAllOk` but with the extended-info flag input off. -/
def envFlagOff : RunEnv := { envAllOk with showExtendedInfoInput := "false" }

/-- An environment where every executable resolves but every git process
exits 1; in particular the bare `exec.exec` safe-directory configuration
call fails. -/
def envCfgFail : RunEnv :=
  { exec := { found := fun _ => true,
              runOf := fun c _ =>
                if c = "git" then { stdout := "", stderr := "fatal: could not lock config file", exitCode := 1 }
                else { stdout := "", stderr := "", exitCode := 0 } },
    now := JSDate.mk 2025 0 1 0 0 0,
    showExtendedInfoInput := "true",
    runnerOS := some "Linux",
    githubWorkspace := some "/workspace",
    githubRepository := some "octo/demo",
    githubRefName := some "main",
    githubSha := some "0123456789abcdef",
    javaHome := none,
    osType := "Linux", osRelease := "6.1", osVersion := "#1",
    osArch := "x64", osHostname := "runner",
    totalMemGB := "16.00", freeMemGB := "8.00",
    osReleaseExists := true,
    osReleaseContent := "PRETTY_NAME=\"Test OS 1.0\"" }

/-- A Linux environment without `/etc/os-release` and without an
`lsb_release` executable. -/
def envLsbMissing : RunEnv :=
  { exec := { found := fun c => if c = "lsb_release" then false else true,
              runOf := fun _ _ => { stdout := "", stderr := "", exitCode := 0 } },
    now := JSDate.mk 2025 0 1 0 0 0,
    showExtendedInfoInput := "false",
    runnerOS := some "Linux",
    githubWorkspace := none,
    githubRepository := some "octo/demo",
    githubRefName := some "main",
    githubSha := some "0123456789abcdef",
    javaHome := none,
    osType := "Linux", osRelease := "6.1", osVersion := "#1",
    osArch := "x64", osHostname := "runner",
    totalMemGB := "16.00", freeMemGB := "8.00",
    osReleaseExists := false,
    osReleaseContent := "" }

/-! ### C1: command failures and run continuation -/

/-- C1 (amended). Every command routed through `getCommandOutput` yields a
CommandResult even on a non-zero exit code and never terminates the run.
However, two provisos bound the claim: a command whose executable cannot
be resolved rejects before its exit code exists, and the one invocation
issued directly via a bare `exec.exec` — the git safe-directory
configuration, src/index.js line 96 — rejects on any non-zero exit.
Either rejection reaches only the top-level catch and terminates the run.
Whenever every invoked executable is present and that one bare call exits
zero (or is skipped because the workspace variable is unset), no
external-command failure terminates the run: the run finishes unfailed
and the subsequent independent commands, e.g. the git author query, are
attempted. -/
theorem run_continues_past_command_failures (env : RunEnv)
    (hfound : ∀ c, env.exec.found c = true)
    (hcfg : envStr env.githubWorkspace ≠ "" →
      (env.exec.runOf "git" ["config", "--global", "--add", "safe.directory",
        envStr env.githubWorkspace]).exitCode = 0) :
    (run env).failed = none ∧ authorCmd ∈ (run env).state.trace := by
  obtain ⟨s1, hs1⟩ := stageOSDetails_ok env (stageTimestamp env (RunState.mk [] [] [])).1
    (stageTimestamp env (RunState.mk [] [] [])).2 hfound
  obtain ⟨s2, hs2, hauthor⟩ := stageGitDetails_ok env s1 (hfound "git") hcfg
  obtain ⟨s3, hs3, hmono⟩ := stageExtendedInfo_ok env s2 (hfound "java")
  unfold run
  rw [runBody_eq, hs1]
  dsimp only
  rw [hs2]
  dsimp only
  rw [hs3]
  exact ⟨rfl, hmono authorCmd hauthor⟩

theorem run_continues_witness :
    (run envAllOk).failed = none ∧ authorCmd ∈ (run envAllOk).state.trace :=
  run_continues_past_command_failures envAllOk (fun _ => rfl) (fun _ => rfl)

theorem run_halts_on_git_config_failure :
    (run envCfgFail).failed.isSome = true ∧ authorCmd ∉ (run envCfgFail).state.trace := by
  decide

/-! ### C2 counterexample: an absent lsb_release is fatal to the run -/

theorem run_fails_when_lsb_release_missing :
    (run envLsbMissing).failed = some "Unable to locate executable file: lsb_release" ∧
    "  DISTRO INFO:    N/A" ∉ (run envLsbMissing).state.log := by
  decide

/-! ### C8 witness and counterexample -/

theorem extended_section_gating_witness :
    (stageExtendedInfo envFlagOff (RunState.mk [] [] []) = StepResult.ok (RunState.mk [] [] []) ∧
     javaCmd ∉ (run envFlagOff).state.trace ∧
     ("tree", treeArgs envFlagOff) ∉ (run envFlagOff).state.trace) ∧
    (javaCmd ∈ (stageExtendedInfo envAllOk (RunState.mk [] [] [])).state.trace ∧
     ∃ st', stageExtendedInfo envAllOk (RunState.mk [] [] []) = StepResult.ok st' ∧
       ("tree", treeArgs envAllOk) ∈ st'.trace ∧ extHeader ∈ st'.log) :=
  ⟨(extended_section_gating envFlagOff (RunState.mk [] [] [])).1 (by decide),
   ⟨((extended_section_gating envAllOk (RunState.mk [] [] [])).2 (by decide)).1,
    ((extended_section_gating envAllOk (RunState.mk [] [] [])).2 (by decide)).2 rfl⟩⟩

theorem extended_probes_skipped_despite_flag :
    showExtendedInfo envCfgFail.showExtendedInfoInput = true ∧
    javaCmd ∉ (run envCfgFail).state.trace ∧
    ("tree", treeArgs envCfgFail) ∉ (run envCfgFail).state.trace := by
  decide

/-! ### C4: the timestamp format and the single run output -/

/-- C4. For every instant whose year has four digits and whose other
components are in range, the generated timestamp matches
`YYYY-MM-DD HH:MM:SS UTC` with two-digit zero-padded month, day, hour,
minute and second; the instant 2024-03-05T07:02:09Z yields exactly
`2024-03-05 07:02:09 UTC`; and the run's outputs list is exactly the
single `formatted_run_timestamp` entry holding that string. -/
theorem timestamp_format_and_output (env : RunEnv)
    (h1 : 1000 ≤ env.now.getUTCFullYear) (h2 : env.now.getUTCFullYear < 10000)
    (hM : env.now.getUTCMonth + 1 < 100) (hD : env.now.getUTCDate < 100)
    (hH : env.now.getUTCHours < 100) (hN : env.now.getUTCMinutes < 100)
    (hS : env.now.getUTCSeconds < 100) :
    tsWellFormed (makeTimestamp env.now) = true ∧
    (run env).state.outputs = [("formatted_run_timestamp", makeTimestamp env.now)] ∧
    makeTimestamp (JSDate.mk 2024 2 5 7 2 9) = "2024-03-05 07:02:09 UTC" := by
  refine ⟨?_, run_outputs env, by decide⟩
  obtain ⟨hY4, hYd⟩ := repr_year_four env.now.getUTCFullYear h1 h2
  obtain ⟨hM2, hMd⟩ := pad2_shape (env.now.getUTCMonth + 1) hM
  obtain ⟨hD2, hDd⟩ := pad2_shape env.now.getUTCDate hD
  obtain ⟨hH2, hHd⟩ := pad2_shape env.now.getUTCHours hH
  obtain ⟨hN2, hNd⟩ := pad2_shape env.now.getUTCMinutes hN
  obtain ⟨hS2, hSd⟩ := pad2_shape env.now.getUTCSeconds hS
  unfold makeTimestamp
  exact tsWellFormed_parts _ _ _ _ _ _ hY4 hYd hM2 hMd hD2 hDd hH2 hHd hN2 hNd hS2 hSd

theorem timestamp_format_witness :
    tsWellFormed (makeTimestamp envAllOk.now) = true ∧
    (run envAllOk).state.outputs = [("formatted_run_timestamp", makeTimestamp envAllOk.now)] ∧
    makeTimestamp (JSDate.mk 2024 2 5 7 2 9) = "2024-03-05 07:02:09 UTC" :=
  timestamp_format_and_output envAllOk (by decide) (by decide) (by decide)
    (by decide) (by decide) (by decide) (by decide)
